import Mathlib

/-!
# Verification of the ImageToSTL core pipeline

Shallow embedding of the repository's core modules
(`src/core/image_processor.py` and `src/core/stl_generator.py`) and proofs
about the height-field pipeline and the mesh synthesizer.

Conventions:
* numpy `uint8` channel data is embedded as `ℤ` (all arithmetic in the
  modelled fragments is exact on these values);
* `float` arithmetic is embedded as exact `ℚ`/`ℝ` arithmetic;
* a 2D numpy array is embedded as a `List` of its cells (for pointwise
  operations) or as a dimensioned grid function (for the mesh synthesizer);
* fallible code paths (`return None`) are embedded with `Option`;
* calls into external libraries (PIL resizing, trimesh post-processing) are
  embedded as explicit function parameters or modelled at their documented
  interface, and are noted where they occur.
-/

namespace ImageToSTL

/-- A 3D point with exact rational coordinates. -/
abbrev Vec3 := ℚ × ℚ × ℚ

/-! ## Image model (`src/core/image_processor.py`)

An RGBA pixel as stored in `self.image_array` after `load_image`
(uint8 channels, embedded as integers). -/

structure Pixel where
  r : ℤ
  g : ℤ
  b : ℤ
  a : ℤ
  deriving DecidableEq, Repr

/-- A color→height rule: target RGB (0–255 scale), tolerance, and assigned
height.  `color_height_mapping` is an insertion-ordered dict; we embed it as
the ordered list of its entries.  The call site in
`generate_height_map_from_colors` always uses the default tolerance 10, but
the rule keeps the tolerance of `select_color_range`. -/
structure ColorRule where
  tr : ℤ
  tg : ℤ
  tb : ℤ
  tol : ℕ
  height : ℚ
  deriving DecidableEq, Repr

/-- Embeds the `select_color_range` (image_processor.py:39-59) pixel predicate: the
Euclidean distance between the pixel RGB and the target RGB is ≤ tolerance.
With a nonnegative tolerance this is equivalent to comparing squares, which
keeps the embedding exact. -/
def ruleMatches (p : Pixel) (r : ColorRule) : Bool :=
  decide ((p.r - r.tr) ^ 2 + (p.g - r.tg) ^ 2 + (p.b - r.tb) ^ 2 ≤ (r.tol : ℤ) ^ 2)

/-- The rule-mask loop of `generate_height_map_from_colors`
(image_processor.py:92-102) at one pixel: start from the zero-initialized
height map and overwrite with each matching rule's height, in mapping
order. -/
def rule_heights (rules : List ColorRule) (p : Pixel) : ℚ :=
  rules.foldl (fun acc r => if ruleMatches p r then r.height else acc) 0

/-- One pixel of `generate_height_map_from_colors`
(image_processor.py:84-108): the transparency mask
(`height_map[transparent_mask] = 0`, line 105) is applied after all rule
masks, so it overrides every rule result. -/
def generate_pixel_height (thr : ℤ) (rules : List ColorRule) (p : Pixel) : ℚ :=
  if p.a < thr then 0 else rule_heights rules p

/-- Per-pixel brightness (image_processor.py:74): mean of the three color
channels. -/
def pixBrightness (p : Pixel) : ℚ :=
  ((p.r : ℚ) + (p.g : ℚ) + (p.b : ℚ)) / 3

/-- Embeds `np.min` over the cells of a nonempty array (the empty case never occurs
on a loaded image; we give it a harmless default). -/
def listMin : List ℚ → ℚ
  | [] => 0
  | x :: xs => xs.foldl min x

/-- Embeds `np.max` over the cells of a nonempty array. -/
def listMax : List ℚ → ℚ
  | [] => 0
  | x :: xs => xs.foldl max x

/-- Embeds the `auto_assign_heights_by_brightness` core (image_processor.py:73-82) on
the flattened pixel array: normalize brightness to [0,1], or produce the
all-zero field when the brightness range is degenerate
(`np.zeros_like`, line 82). -/
def brightness_heights (img : List Pixel) : List ℚ :=
  let bs := img.map pixBrightness
  if listMin bs < listMax bs then
    bs.map (fun b => (b - listMin bs) / (listMax bs - listMin bs))
  else
    bs.map (fun _ => 0)

/-- Embeds the `invert_heights` core (image_processor.py:110-118) on the flattened
height map: `max_val + min_val - height`, with min/max taken from the field
once at invocation time. -/
def invert_heights (l : List ℚ) : List ℚ :=
  l.map (fun h => listMax l + listMin l - h)

/-- Embeds `adjust_resolution` (image_processor.py:120-135), dimension part.
`int(h * scale_factor)` truncates toward zero, which on the nonnegative
values arising here is the floor.  A nonpositive factor returns without
changing the map (line 125).  The resampled cell values come from PIL
`Image.resize(..., BICUBIC)`, an external library call outside this model;
the dimensions are fully determined by this fragment. -/
def adjust_resolution_dims (h w : ℕ) (f : ℚ) : ℕ × ℕ :=
  if f ≤ 0 then (h, w)
  else ((⌊(h : ℚ) * f⌋).toNat, (⌊(w : ℚ) * f⌋).toNat)

/-- Modelled from the spec: the resample dimension rule as the claim states
it — `round(H·f) × round(W·f)`, clamped to a minimum of 2×2.  Used only to
compare against the source's `adjust_resolution_dims`. -/
def resample_dims_spec (h w : ℕ) (f : ℚ) : ℕ × ℕ :=
  (max 2 (round ((h : ℚ) * f)).toNat, max 2 (round ((w : ℚ) * f)).toNat)

/-- The mutable fields of `ImageProcessor` that the height-map generators
read and write. -/
structure ProcState where
  image_array : Option (List Pixel)
  height_map : Option (List ℚ)
  mapping : List ColorRule

/-- Embeds `generate_height_map_from_colors` (image_processor.py:84-108) as a state
transformer returning the new state and the returned value: with no image or
an empty mapping it returns `None` before any assignment
(line 89-90), leaving the stored height map untouched. -/
def generate_height_map_from_colors (s : ProcState) (thr : ℤ) :
    ProcState × Option (List ℚ) :=
  match s.image_array with
  | none => (s, none)
  | some img =>
      if s.mapping.isEmpty then (s, none)
      else
        let hmap := img.map (generate_pixel_height thr s.mapping)
        ({ s with height_map := some hmap }, some hmap)

/-- Embeds `auto_assign_heights_by_brightness` (image_processor.py:65-82) as a state
transformer: with no image it returns at line 71 without touching the stored
height map. -/
def auto_assign_heights_by_brightness (s : ProcState) : ProcState :=
  match s.image_array with
  | none => s
  | some img => { s with height_map := some (brightness_heights img) }

/-! ## Mesh synthesizer (`src/core/stl_generator.py`)

A height map is a `height × width` grid of exact heights, indexed
`val y x` like `height_map[y, x]`. -/

structure HeightMap where
  h : ℕ
  w : ℕ
  val : ℕ → ℕ → ℚ

/-- Top vertices (stl_generator.py:67-75): row-major over `y`, then `x`;
`z = height_map[y, x] (+ base_thickness unless no_base)`, all scaled. -/
def topVertices (m : HeightMap) (base_thickness scale_factor : ℚ)
    (no_base : Bool) : List Vec3 :=
  (List.range m.h).flatMap fun y =>
    (List.range m.w).map fun (x : ℕ) =>
      ((x : ℚ) * scale_factor, (y : ℚ) * scale_factor,
        (if no_base then m.val y x else m.val y x + base_thickness) * scale_factor)

/-- Bottom vertices (stl_generator.py:78-82): the flat base grid at `z = 0`,
appended after all top vertices. -/
def bottomVertices (m : HeightMap) (scale_factor : ℚ) : List Vec3 :=
  (List.range m.h).flatMap fun y =>
    (List.range m.w).map fun (x : ℕ) =>
      ((x : ℚ) * scale_factor, (y : ℚ) * scale_factor, 0)

/-- Top faces (stl_generator.py:89-99): each interior quad split along the
fixed diagonal into `[v1, v2, v3]` and `[v2, v4, v3]`. -/
def topFaces (h w : ℕ) : List (ℕ × ℕ × ℕ) :=
  (List.range (h - 1)).flatMap fun y =>
    (List.range (w - 1)).flatMap fun x =>
      [(y * w + x, y * w + (x + 1), (y + 1) * w + x),
       (y * w + (x + 1), (y + 1) * w + (x + 1), (y + 1) * w + x)]

/-- Bottom faces (stl_generator.py:103-114): mirrored quads with reversed
winding, offset by `height * width`. -/
def bottomFaces (h w : ℕ) : List (ℕ × ℕ × ℕ) :=
  (List.range (h - 1)).flatMap fun y =>
    (List.range (w - 1)).flatMap fun x =>
      [(h * w + y * w + x, h * w + (y + 1) * w + x, h * w + y * w + (x + 1)),
       (h * w + y * w + (x + 1), h * w + (y + 1) * w + x,
         h * w + (y + 1) * w + (x + 1))]

/-- Front and back side faces (stl_generator.py:116-132): two triangles per
boundary edge on the `y = 0` and `y = h - 1` rows. -/
def frontBackFaces (h w : ℕ) : List (ℕ × ℕ × ℕ) :=
  (List.range (w - 1)).flatMap fun x =>
    [(x, h * w + x, x + 1),
     (x + 1, h * w + x, h * w + x + 1),
     ((h - 1) * w + x, (h - 1) * w + x + 1, h * w + (h - 1) * w + x),
     ((h - 1) * w + x + 1, h * w + (h - 1) * w + x + 1, h * w + (h - 1) * w + x)]

/-- Left and right side faces (stl_generator.py:134-150): two triangles per
boundary edge on the `x = 0` and `x = w - 1` columns. -/
def leftRightFaces (h w : ℕ) : List (ℕ × ℕ × ℕ) :=
  (List.range (h - 1)).flatMap fun y =>
    [(y * w, (y + 1) * w, h * w + y * w),
     ((y + 1) * w, h * w + (y + 1) * w, h * w + y * w),
     (y * w + (w - 1), h * w + y * w + (w - 1), (y + 1) * w + (w - 1)),
     ((y + 1) * w + (w - 1), h * w + y * w + (w - 1),
       h * w + (y + 1) * w + (w - 1))]

/-- The full vertex array of the synthesizer (stl_generator.py:64-84). -/
def meshVertices (m : HeightMap) (base_thickness scale_factor : ℚ)
    (no_base : Bool) : List Vec3 :=
  topVertices m base_thickness scale_factor no_base ++
    (if no_base then [] else bottomVertices m scale_factor)

/-- The full face array of the synthesizer (stl_generator.py:86-152). -/
def meshFaces (h w : ℕ) (no_base : Bool) : List (ℕ × ℕ × ℕ) :=
  topFaces h w ++
    (if no_base then []
     else bottomFaces h w ++ frontBackFaces h w ++ leftRightFaces h w)

/-- Triangle estimate of the budget planner (stl_generator.py:37-40):
top-only without a base, or `top · 3` (top, bottom, sides) with one. -/
def estimated_triangles (w h : ℕ) (no_base : Bool) : ℕ :=
  if no_base then 2 * (w - 1) * (h - 1) else 2 * (w - 1) * (h - 1) * 3

/-- The integer downsample factor (stl_generator.py:44-47):
`max(1, int(1 / (sqrt(max_triangles / estimated) * 0.9)))`, computed here in
exact integer arithmetic.  `int` truncates the positive real
`(10/9)·√(est/maxT)`, whose floor is exactly
`Nat.sqrt (100 · est / (81 · maxT))`; the equivalence with the floating
formula is proved in `downsample_factor_eq_formula`. -/
def downsample_factor (est maxT : ℕ) : ℕ :=
  max 1 (Nat.sqrt (100 * est / (81 * maxT)))

/-- Whether the downsampling branch actually resizes the height map
(stl_generator.py:42-62): a positive limit was given, the estimate exceeds
it, and the computed integer factor is greater than 1. -/
def downsample_triggered (w h : ℕ) (no_base : Bool) (maxT : Option ℕ) : Bool :=
  match maxT with
  | none => false
  | some mt =>
      decide (0 < mt) && decide (mt < estimated_triangles w h no_base) &&
        decide (1 < downsample_factor (estimated_triangles w h no_base) mt)

/-- The grid dimensions after the budget planner (stl_generator.py:42-62):
`width // factor` and `height // factor`, each clamped up to 2, when the
resize runs; unchanged otherwise. -/
def planned_dims (w h : ℕ) (no_base : Bool) (maxT : Option ℕ) : ℕ × ℕ :=
  match maxT with
  | none => (w, h)
  | some mt =>
      let est := estimated_triangles w h no_base
      if 0 < mt ∧ mt < est then
        let d := downsample_factor est mt
        if 1 < d then (max 2 (w / d), max 2 (h / d)) else (w, h)
      else (w, h)

/-! ## Non-manifold repair (`enforce_edge_consistency`, stl_generator.py:242-311)

The mesh handed to the repairer, as a vertex array and face triples. -/

structure TriMesh where
  vertices : List Vec3
  faces : List (ℕ × ℕ × ℕ)
  deriving DecidableEq

/-- The three directed edges `trimesh` derives from one face:
`(v0,v1), (v1,v2), (v2,v0)`. -/
def faceEdges (f : ℕ × ℕ × ℕ) : List (ℕ × ℕ) :=
  [(f.1, f.2.1), (f.2.1, f.2.2), (f.2.2, f.1)]

/-- Embeds `mesh.edges`: the per-face directed edges of the whole mesh. -/
def meshEdges (m : TriMesh) : List (ℕ × ℕ) :=
  m.faces.flatMap faceEdges

/-- Embeds `mesh.edges.flatten()`: every vertex occurrence in the edge array. -/
def flatEdges (m : TriMesh) : List ℕ :=
  (meshEdges m).flatMap fun e => [e.1, e.2]

/-- An undirected edge key (`trimesh` sorts each edge's endpoints). -/
def sortEdge (e : ℕ × ℕ) : ℕ × ℕ :=
  if e.1 ≤ e.2 then e else (e.2, e.1)

/-- Embeds `mesh.is_watertight` as `trimesh` defines it: every undirected edge is
included in exactly two faces. -/
def is_watertight (m : TriMesh) : Bool :=
  let es := (meshEdges m).map sortEdge
  es.all fun e => es.count e = 2

/-- Embeds `np.bincount(mesh.edges.flatten())[v] > 2` (stl_generator.py:259-260):
vertex `v` is a "problem" vertex when it occurs more than twice in the
flattened edge array. -/
def problemVertex (m : TriMesh) (v : ℕ) : Bool :=
  decide (2 < (flatEdges m).count v)

/-- The mutable loop state of the duplication pass
(stl_generator.py:270-300): the growing vertex array, the
`(face_key, vertex_id) → duplicate id` map, the next fresh id, and the index
of the next random draw to consume. -/
structure RepairState where
  vertices : List Vec3
  vmap : List ((List ℕ × ℕ) × ℕ)
  nextId : ℕ
  drawIdx : ℕ
  newFaces : List (ℕ × ℕ × ℕ)

/-- Embeds `tuple(sorted(face))` for a face triple. -/
def faceKey (f : ℕ × ℕ × ℕ) : List ℕ :=
  List.insertionSort (· ≤ ·) [f.1, f.2.1, f.2.2]

/-- One vertex slot of the inner loop (stl_generator.py:283-298).  Each call
of `np.random.uniform(-offset_factor, offset_factor, 3)` is embedded as
consuming the next entry of the `draws` list (missing entries default to the
zero offset), which makes the dependence of the output on the random stream
explicit. -/
def processVertex (m : TriMesh) (draws : List Vec3) (fkey : List ℕ)
    (st : RepairState) (vid : ℕ) : RepairState × ℕ :=
  if problemVertex m vid then
    match st.vmap.find? fun kv => decide (kv.1 = (fkey, vid)) with
    | some kv => (st, kv.2)
    | none =>
        let pos := st.vertices.getD vid (0, 0, 0)
        let off := draws.getD st.drawIdx (0, 0, 0)
        let nv : Vec3 := (pos.1 + off.1, pos.2.1 + off.2.1, pos.2.2 + off.2.2)
        (⟨st.vertices ++ [nv], ((fkey, vid), st.nextId) :: st.vmap,
          st.nextId + 1, st.drawIdx + 1, st.newFaces⟩, st.nextId)
  else (st, vid)

/-- One face of the outer loop (stl_generator.py:279-300): rewrite each of
the three slots in order, then append the rewritten face. -/
def processFace (m : TriMesh) (draws : List Vec3) (st : RepairState)
    (f : ℕ × ℕ × ℕ) : RepairState :=
  let fkey := faceKey f
  let r1 := processVertex m draws fkey st f.1
  let r2 := processVertex m draws fkey r1.1 f.2.1
  let r3 := processVertex m draws fkey r2.1 f.2.2
  { r3.1 with newFaces := r3.1.newFaces ++ [(r1.2, r2.2, r3.2)] }

/-- Embeds `enforce_edge_consistency` (stl_generator.py:242-303) up to the
`trimesh.Trimesh(vertices, new_faces)` construction at line 303: a watertight
mesh is returned unchanged (line 254-255), as is a mesh with no problem
vertices (line 262-264); otherwise every face touching a problem vertex gets
a per-(face, vertex) duplicate vertex at the original position plus a random
offset.  The subsequent `fix_normals` and `merge_vertices(1e-6)`
(lines 306-309) are external `trimesh` calls outside this model and do not
touch the offsets themselves. -/
def enforce_edge_consistency (m : TriMesh) (draws : List Vec3) : TriMesh :=
  if is_watertight m then m
  else if (List.range m.vertices.length).all fun v => !problemVertex m v then m
  else
    let st0 : RepairState := ⟨m.vertices, [], m.vertices.length, 0, []⟩
    let stF := m.faces.foldl (processFace m draws) st0
    ⟨stF.vertices, stF.newFaces⟩

/-- Embeds `offset_factor = 1e-5` (stl_generator.py:271): a draw of
`np.random.uniform(-offset_factor, offset_factor, 3)` has every component in
the half-open interval `[-1e-5, 1e-5)`. -/
def offsetInRange (v : Vec3) : Bool :=
  decide (-(1 / 100000 : ℚ) ≤ v.1) && decide (v.1 < 1 / 100000) &&
    decide (-(1 / 100000 : ℚ) ≤ v.2.1) && decide (v.2.1 < 1 / 100000) &&
    decide (-(1 / 100000 : ℚ) ≤ v.2.2) && decide (v.2.2 < 1 / 100000)

/-- Embeds `enforce_edge_consistency` (stl_generator.py:242-311) end to end:
the two early returns (watertight at line 254-255, no problem vertices at
line 262-264) hand the mesh back untouched, and otherwise the duplication
pass of `enforce_edge_consistency` is followed by the external `trimesh`
tail calls `fixed_mesh.fix_normals()` (line 306) and
`fixed_mesh.merge_vertices(merge_tolerance=1e-6)` (line 309), passed in as
the `fix_winding` and `merge_fine` parameters. -/
def enforce_edge_consistency_full (m : TriMesh) (draws : List Vec3)
    (fix_winding merge_fine : TriMesh → TriMesh) : TriMesh :=
  if is_watertight m then m
  else if (List.range m.vertices.length).all fun v => !problemVertex m v then m
  else merge_fine (fix_winding (enforce_edge_consistency m draws))

/-! ## Mesh creation (`create_mesh_from_height_map`, stl_generator.py:14-179) -/

/-- Embeds `create_mesh_from_height_map` (stl_generator.py:14-179) end to
end.  A `None` height map returns `None` (lines 28-29).  The budget planner
fixes the resized grid's dimensions; the resampled cell values come from PIL
`Image.resize(..., BICUBIC)` (lines 51-61), an external library call passed
in as the `resize` parameter.  The vertex/face arrays are handed to
`trimesh.Trimesh` (line 155), whose default construction merges only
exactly-coincident vertices — a no-op on these grids whenever the synthesized
vertex positions are pairwise distinct (e.g. positive scale, and positive
base thickness with nonnegative heights), so the constructed mesh is
identified with its arrays.  The repair gate (lines 157-174) then runs
whenever that mesh is not watertight: the external `trimesh` calls
`merge_vertices(merge_tolerance=1e-5)` (line 161), `fix_normals()`
(line 164) and the degenerate-face removal (lines 167-170) are passed in as
the `merge_coarse`, `fix_winding1` and `drop_degenerate` parameters, and the
in-repo `enforce_edge_consistency` (line 174) runs with its own external
tail (`fix_winding2`, `merge_fine`) and the random draw stream `draws`. -/
def create_mesh_from_height_map (hm : Option HeightMap)
    (base_thickness scale_factor : ℚ) (maxT : Option ℕ) (no_base : Bool)
    (resize : HeightMap → ℕ → ℕ → ℕ → ℕ → ℚ)
    (merge_coarse fix_winding1 drop_degenerate fix_winding2 merge_fine :
      TriMesh → TriMesh)
    (draws : List Vec3) : Option TriMesh :=
  match hm with
  | none => none
  | some m =>
      let dims := planned_dims m.w m.h no_base maxT
      let m' : HeightMap :=
        if downsample_triggered m.w m.h no_base maxT then
          ⟨dims.2, dims.1, fun y x => resize m dims.1 dims.2 y x⟩
        else m
      let mesh0 : TriMesh :=
        ⟨meshVertices m' base_thickness scale_factor no_base,
         meshFaces m'.h m'.w no_base⟩
      if is_watertight mesh0 then some mesh0
      else
        let mesh1 := drop_degenerate (fix_winding1 (merge_coarse mesh0))
        some (enforce_edge_consistency_full mesh1 draws fix_winding2 merge_fine)

/-! ## Image loading (`load_image`, image_processor.py:19-31) -/

/-- The storage modes relevant to loading: PIL's native RGBA and two
representative non-RGBA source modes. -/
inductive ImageMode
  | rgba
  | rgb
  | gray
  deriving DecidableEq

/-- Channels per pixel in each source mode. -/
def channelCount : ImageMode → ℕ
  | .rgba => 4
  | .rgb => 3
  | .gray => 1

/-- A decoded raster before conversion: its mode and its pixels, each a list
of `channelCount mode` integer channels. -/
structure RawImage where
  mode : ImageMode
  pix : List (List ℤ)

/-- One pixel of PIL's `Image.convert('RGBA')` at its documented interface
(an external collaborator per spec §6): RGB gains an opaque alpha, grayscale
replicates its value into RGB and gains an opaque alpha, RGBA is unchanged.
Only the resulting channel count matters to the claims. -/
def convert_to_rgba_pixel : ImageMode → List ℤ → List ℤ
  | .rgba, p => p
  | .rgb, p => p ++ [255]
  | .gray, p => [p.getD 0 0, p.getD 0 0, p.getD 0 0, 255]

/-- Embeds `load_image` (image_processor.py:19-31): convert to RGBA unless the image
already is RGBA, then store the pixel array (`np.array(self.image)`). -/
def load_image (img : RawImage) : List (List ℤ) :=
  if img.mode = ImageMode.rgba then img.pix
  else img.pix.map (convert_to_rgba_pixel img.mode)

/-! ## List helpers -/

lemma length_flatMap_const {α β : Type} (l : List α) (f : α → List β) (k : ℕ)
    (hf : ∀ a ∈ l, (f a).length = k) :
    (l.flatMap f).length = l.length * k := by
  induction l with
  | nil => simp
  | cons a t ih =>
      simp only [List.flatMap_cons, List.length_append, List.length_cons]
      rw [hf a (List.mem_cons_self a t),
        ih fun b hb => hf b (List.mem_cons_of_mem a hb)]
      ring

lemma foldl_min_le (xs : List ℚ) : ∀ x : ℚ, xs.foldl min x ≤ x := by
  induction xs with
  | nil => intro x; exact le_refl x
  | cons y ys ih =>
      intro x
      exact le_trans (ih (min x y)) (min_le_left x y)

lemma foldl_min_le_mem (xs : List ℚ) :
    ∀ (x a : ℚ), a ∈ xs → xs.foldl min x ≤ a := by
  induction xs with
  | nil => intro x a ha; cases ha
  | cons y ys ih =>
      intro x a ha
      rcases List.mem_cons.mp ha with rfl | ha
      · exact le_trans (foldl_min_le ys (min x a)) (min_le_right x a)
      · exact ih (min x y) a ha

lemma le_foldl_max (xs : List ℚ) : ∀ x : ℚ, x ≤ xs.foldl max x := by
  induction xs with
  | nil => intro x; exact le_refl x
  | cons y ys ih =>
      intro x
      exact le_trans (le_max_left x y) (ih (max x y))

lemma le_foldl_max_mem (xs : List ℚ) :
    ∀ (x a : ℚ), a ∈ xs → a ≤ xs.foldl max x := by
  induction xs with
  | nil => intro x a ha; cases ha
  | cons y ys ih =>
      intro x a ha
      rcases List.mem_cons.mp ha with rfl | ha
      · exact le_trans (le_max_right x a) (le_foldl_max ys (max x a))
      · exact ih (max x y) a ha

lemma listMin_le_mem (l : List ℚ) (a : ℚ) (ha : a ∈ l) : listMin l ≤ a := by
  cases l with
  | nil => cases ha
  | cons x xs =>
      rcases List.mem_cons.mp ha with rfl | ha
      · exact foldl_min_le xs a
      · exact foldl_min_le_mem xs x a ha

lemma le_listMax_mem (l : List ℚ) (a : ℚ) (ha : a ∈ l) : a ≤ listMax l := by
  cases l with
  | nil => cases ha
  | cons x xs =>
      rcases List.mem_cons.mp ha with rfl | ha
      · exact le_foldl_max xs a
      · exact le_foldl_max_mem xs x a ha

lemma foldl_min_map_sub (c : ℚ) :
    ∀ (xs : List ℚ) (x : ℚ),
      (xs.map (fun v => c - v)).foldl min (c - x) = c - xs.foldl max x := by
  intro xs
  induction xs with
  | nil => intro x; rfl
  | cons y ys ih =>
      intro x
      simp only [List.map_cons, List.foldl_cons]
      rw [min_sub_sub_left, ih]

lemma foldl_max_map_sub (c : ℚ) :
    ∀ (xs : List ℚ) (x : ℚ),
      (xs.map (fun v => c - v)).foldl max (c - x) = c - xs.foldl min x := by
  intro xs
  induction xs with
  | nil => intro x; rfl
  | cons y ys ih =>
      intro x
      simp only [List.map_cons, List.foldl_cons]
      rw [max_sub_sub_left, ih]

/-! ## Claim C6: invert is an involution -/

/-- Claim C6: applying `invert_heights` twice in succession, with no
intervening edit, restores the original height field.  In this exact-
arithmetic embedding the restoration is exact, which implies the claim's
"up to floating-point rounding". -/
theorem invert_heights_involutive (l : List ℚ) (hne : l ≠ []) :
    invert_heights (invert_heights l) = l := by
  obtain ⟨x, xs, rfl⟩ := List.exists_cons_of_ne_nil hne
  set c : ℚ := listMax (x :: xs) + listMin (x :: xs) with hc
  have h1 : invert_heights (x :: xs) = (x :: xs).map (fun v => c - v) := rfl
  have hmax : listMax ((x :: xs).map (fun v => c - v)) = c - listMin (x :: xs) := by
    simp only [List.map_cons, listMax]
    rw [foldl_max_map_sub]
    rfl
  have hmin : listMin ((x :: xs).map (fun v => c - v)) = c - listMax (x :: xs) := by
    simp only [List.map_cons, listMin]
    rw [foldl_min_map_sub]
    rfl
  rw [h1]
  unfold invert_heights
  rw [hmax, hmin, List.map_map]
  have h3 : ∀ a ∈ (x :: xs),
      ((fun v => c - listMin (x :: xs) + (c - listMax (x :: xs)) - v) ∘
        (fun v => c - v)) a = a := by
    intro a _
    simp only [Function.comp, hc]
    ring
  rw [List.map_congr_left h3, List.map_id']

/-- Closed witness for C6 at a concrete field. -/
theorem invert_heights_involutive_witness :
    ([1, 3, 2] : List ℚ) ≠ [] ∧
      invert_heights (invert_heights [1, 3, 2]) = ([1, 3, 2] : List ℚ) :=
  ⟨by decide, invert_heights_involutive [1, 3, 2] (by decide)⟩

/-! ## Claim C7: resample dimensions -/

/-- Claim C7 counterexample: at a 3×3 field with factor 1/2 the source
truncates `3 · (1/2)` to 1 and applies no 2×2 clamp, so the result is a
1×1 grid, while the claim's `round`-and-clamp rule would give 2×2. -/
theorem adjust_resolution_dims_counter :
    adjust_resolution_dims 3 3 (1 / 2) = (1, 1) ∧
      resample_dims_spec 3 3 (1 / 2) = (2, 2) ∧
      adjust_resolution_dims 3 3 (1 / 2) ≠ resample_dims_spec 3 3 (1 / 2) := by
  have h1 : adjust_resolution_dims 3 3 (1 / 2) = (1, 1) := by
    unfold adjust_resolution_dims
    rw [if_neg (by norm_num)]
    norm_num
  have h2 : resample_dims_spec 3 3 (1 / 2) = (2, 2) := by
    unfold resample_dims_spec
    rw [round_eq]
    norm_num
  exact ⟨h1, h2, by rw [h1, h2]; decide⟩

/-- Claim C7 as amended: for factor f > 0 the resample yields
`int(H·f) × int(W·f)` cells — truncation toward zero, not rounding — with no
minimum clamp, and factor 1.0 leaves the dimensions unchanged. -/
theorem adjust_resolution_dims_eq (h w : ℕ) (f : ℚ) (hf : 0 < f) :
    adjust_resolution_dims h w f = ((⌊(h : ℚ) * f⌋).toNat, (⌊(w : ℚ) * f⌋).toNat) ∧
      adjust_resolution_dims h w 1 = (h, w) := by
  constructor
  · unfold adjust_resolution_dims
    rw [if_neg (not_le.mpr hf)]
  · unfold adjust_resolution_dims
    rw [if_neg (by norm_num)]
    simp

/-- Closed witness for the amended C7. -/
theorem adjust_resolution_dims_eq_witness :
    (0 : ℚ) < 3 / 2 ∧
      (adjust_resolution_dims 4 5 (3 / 2) =
          ((⌊(4 : ℚ) * (3 / 2)⌋).toNat, (⌊(5 : ℚ) * (3 / 2)⌋).toNat) ∧
        adjust_resolution_dims 4 5 1 = (4, 5)) :=
  ⟨by norm_num, adjust_resolution_dims_eq 4 5 (3 / 2) (by norm_num)⟩

/-! ## Claim C8: brightness mode -/

/-- Claim C8: in brightness mode each pixel's height is
`(brightness − globalMin) / (globalMax − globalMin)`, which always lies in
`[0, 1]` (so the claim's clamp is the identity), and on a flat image
(`globalMax = globalMin`) every height is 0 with no division by zero. -/
theorem brightness_heights_formula (img : List Pixel) (p : Pixel) (i : ℕ)
    (hp : img.get? i = some p) :
    (brightness_heights img).get? i =
      some (if listMin (img.map pixBrightness) < listMax (img.map pixBrightness)
        then (pixBrightness p - listMin (img.map pixBrightness)) /
          (listMax (img.map pixBrightness) - listMin (img.map pixBrightness))
        else 0) ∧
    ∀ q ∈ brightness_heights img, 0 ≤ q ∧ q ≤ 1 := by
  have hmem : pixBrightness p ∈ img.map pixBrightness := by
    exact List.mem_map_of_mem pixBrightness (List.get?_mem hp)
  constructor
  · unfold brightness_heights
    by_cases hlt : listMin (img.map pixBrightness) < listMax (img.map pixBrightness)
    · rw [if_pos hlt, if_pos hlt, List.get?_map, List.get?_map, hp]
      rfl
    · rw [if_neg hlt, if_neg hlt, List.get?_map, List.get?_map, hp]
      rfl
  · intro q hq
    unfold brightness_heights at hq
    by_cases hlt : listMin (img.map pixBrightness) < listMax (img.map pixBrightness)
    · rw [if_pos hlt] at hq
      obtain ⟨b, hb, rfl⟩ := List.mem_map.mp hq
      have h1 : listMin (img.map pixBrightness) ≤ b := listMin_le_mem _ b hb
      have h2 : b ≤ listMax (img.map pixBrightness) := le_listMax_mem _ b hb
      constructor
      · exact div_nonneg (by linarith) (by linarith)
      · rw [div_le_one (by linarith)]
        linarith
    · rw [if_neg hlt] at hq
      obtain ⟨b, hb, rfl⟩ := List.mem_map.mp hq
      norm_num

/-- Closed witness for C8 on a two-pixel image. -/
theorem brightness_heights_formula_witness :
    ([⟨0, 0, 0, 255⟩, ⟨255, 255, 255, 255⟩] : List Pixel).get? 1 =
        some ⟨255, 255, 255, 255⟩ ∧
      ((brightness_heights [⟨0, 0, 0, 255⟩, ⟨255, 255, 255, 255⟩]).get? 1 =
        some (if listMin ([⟨0, 0, 0, 255⟩, ⟨255, 255, 255, 255⟩].map pixBrightness) <
            listMax ([⟨0, 0, 0, 255⟩, ⟨255, 255, 255, 255⟩].map pixBrightness)
          then (pixBrightness ⟨255, 255, 255, 255⟩ -
              listMin ([⟨0, 0, 0, 255⟩, ⟨255, 255, 255, 255⟩].map pixBrightness)) /
            (listMax ([⟨0, 0, 0, 255⟩, ⟨255, 255, 255, 255⟩].map pixBrightness) -
              listMin ([⟨0, 0, 0, 255⟩, ⟨255, 255, 255, 255⟩].map pixBrightness))
          else 0) ∧
      ∀ q ∈ brightness_heights [⟨0, 0, 0, 255⟩, ⟨255, 255, 255, 255⟩],
        0 ≤ q ∧ q ≤ 1) :=
  ⟨rfl, brightness_heights_formula [⟨0, 0, 0, 255⟩, ⟨255, 255, 255, 255⟩]
    ⟨255, 255, 255, 255⟩ 1 rfl⟩

/-! ## Claim C9: generation fails without input -/

/-- Claim C9: height-field generation fails when no image is loaded — and in
rule mode also when the rule mapping is empty — and the failing stage leaves
the processor state (in particular the stored height map) untouched.  The
source signals this failure by returning `None` (there is no exception
class in the code); the embedding renders that failure as `Option.none`. -/
theorem generation_requires_input (s : ProcState) (thr : ℤ)
    (h : s.image_array = none ∨ s.mapping = []) :
    (generate_height_map_from_colors s thr).2 = none ∧
    (generate_height_map_from_colors s thr).1 = s ∧
    (s.image_array = none → auto_assign_heights_by_brightness s = s) := by
  rcases h with h | h
  · unfold generate_height_map_from_colors auto_assign_heights_by_brightness
    rw [h]
    exact ⟨rfl, rfl, fun _ => rfl⟩
  · cases him : s.image_array with
    | none =>
        unfold generate_height_map_from_colors auto_assign_heights_by_brightness
        rw [him]
        exact ⟨rfl, rfl, fun _ => rfl⟩
    | some img =>
        unfold generate_height_map_from_colors
        rw [him, h]
        exact ⟨rfl, rfl, fun h' => Option.noConfusion h'⟩

/-- Closed witness for C9: a state with no loaded image. -/
theorem generation_requires_input_witness :
    ((⟨none, some [1], [⟨0, 0, 0, 10, 1⟩]⟩ : ProcState).image_array = none ∨
      (⟨none, some [1], [⟨0, 0, 0, 10, 1⟩]⟩ : ProcState).mapping = []) ∧
    ((generate_height_map_from_colors ⟨none, some [1], [⟨0, 0, 0, 10, 1⟩]⟩ 128).2 = none ∧
      (generate_height_map_from_colors ⟨none, some [1], [⟨0, 0, 0, 10, 1⟩]⟩ 128).1 =
        ⟨none, some [1], [⟨0, 0, 0, 10, 1⟩]⟩ ∧
      ((⟨none, some [1], [⟨0, 0, 0, 10, 1⟩]⟩ : ProcState).image_array = none →
        auto_assign_heights_by_brightness ⟨none, some [1], [⟨0, 0, 0, 10, 1⟩]⟩ =
          ⟨none, some [1], [⟨0, 0, 0, 10, 1⟩]⟩)) :=
  ⟨Or.inl rfl, generation_requires_input ⟨none, some [1], [⟨0, 0, 0, 10, 1⟩]⟩ 128 (Or.inl rfl)⟩

/-! ## Claim C5: rule order and transparency -/

lemma rule_fold_no_match (p : Pixel) (rules : List ColorRule) (init : ℚ)
    (h : ∀ r ∈ rules, ruleMatches p r = false) :
    rules.foldl (fun acc r => if ruleMatches p r then r.height else acc) init =
      init := by
  induction rules generalizing init with
  | nil => rfl
  | cons r rs ih =>
      simp only [List.foldl_cons]
      rw [if_neg (by rw [h r (List.mem_cons_self r rs)]; exact Bool.false_ne_true)]
      exact ih init fun r' hr' => h r' (List.mem_cons_of_mem r hr')

lemma rule_fold_last_match (p : Pixel) :
    ∀ (rules : List ColorRule) (init : ℚ) (j : ℕ) (rj : ColorRule),
      rules.get? j = some rj → ruleMatches p rj = true →
      (∀ k rk, j < k → rules.get? k = some rk → ruleMatches p rk = false) →
      rules.foldl (fun acc r => if ruleMatches p r then r.height else acc) init =
        rj.height := by
  intro rules
  induction rules with
  | nil => intro init j rj hg; cases hg
  | cons r rs ih =>
      intro init j rj hg hm hafter
      cases j with
      | zero =>
          have hr : r = rj := by
            simpa using hg
          subst hr
          simp only [List.foldl_cons]
          rw [if_pos hm]
          refine rule_fold_no_match p rs r.height fun r' hr' => ?_
          obtain ⟨n, hn⟩ := List.get?_of_mem hr'
          exact hafter (n + 1) r' (Nat.succ_pos n) hn
      | succ j' =>
          simp only [List.foldl_cons]
          exact ih _ j' rj hg hm fun k rk hlt hk =>
            hafter (k + 1) rk (Nat.succ_lt_succ hlt) hk

/-- Claim C5: in rule mode, when a pixel is matched by an earlier rule `ri`
and a later rule `rj`, and `rj` is the last rule matching it, the pixel's
final height is `rj`'s height (last-write-wins over the ordered mapping),
provided the pixel is opaque; and any pixel with alpha below the
transparency threshold ends at height 0 regardless of the matched rules,
because the transparency mask is applied after all rule masks. -/
theorem rule_overlap_last_write_wins (rules : List ColorRule) (thr : ℤ)
    (p : Pixel) (i j : ℕ) (ri rj : ColorRule) (hij : i < j)
    (hgi : rules.get? i = some ri) (hgj : rules.get? j = some rj)
    (hmi : ruleMatches p ri = true) (hmj : ruleMatches p rj = true)
    (hlast : ∀ k rk, j < k → rules.get? k = some rk → ruleMatches p rk = false) :
    (thr ≤ p.a → generate_pixel_height thr rules p = rj.height) ∧
    (p.a < thr → generate_pixel_height thr rules p = 0) := by
  constructor
  · intro hA
    unfold generate_pixel_height
    rw [if_neg (not_lt.mpr hA)]
    exact rule_fold_last_match p rules 0 j rj hgj hmj hlast
  · intro hA
    unfold generate_pixel_height
    rw [if_pos hA]

/-- Closed witness for C5: a black pixel matched by both rules of a
two-rule mapping takes the second rule's height. -/
theorem rule_overlap_last_write_wins_witness :
    ruleMatches ⟨0, 0, 0, 255⟩ ⟨0, 0, 0, 10, 5⟩ = true ∧
    ruleMatches ⟨0, 0, 0, 255⟩ ⟨6, 0, 0, 10, 7⟩ = true ∧
    generate_pixel_height 128 [⟨0, 0, 0, 10, 5⟩, ⟨6, 0, 0, 10, 7⟩] ⟨0, 0, 0, 255⟩ = 7 := by
  have hm1 : ruleMatches ⟨0, 0, 0, 255⟩ ⟨0, 0, 0, 10, 5⟩ = true := by
    unfold ruleMatches
    norm_num
  have hm2 : ruleMatches ⟨0, 0, 0, 255⟩ ⟨6, 0, 0, 10, 7⟩ = true := by
    unfold ruleMatches
    norm_num
  refine ⟨hm1, hm2, ?_⟩
  have h := (rule_overlap_last_write_wins
    [⟨0, 0, 0, 10, 5⟩, ⟨6, 0, 0, 10, 7⟩] 128 ⟨0, 0, 0, 255⟩ 0 1
    ⟨0, 0, 0, 10, 5⟩ ⟨6, 0, 0, 10, 7⟩ (by norm_num) rfl rfl hm1 hm2
    (fun k rk hlt hk => by
      rw [List.get?_eq_none.mpr (by simpa using hlt)] at hk
      cases hk)).1 (by norm_num)
  simpa using h

/-! ## Claim C10: loaded images are RGBA -/

/-- Claim C10: after a successful `load_image` the stored pixel array always
has 4 channels, for any source mode, so every later access to the alpha
channel (index 3) — the `[:,:,3]` reads in rule-mode generation
(image_processor.py:95) and in dominant-color extraction
(image_processor.py:165) — is in bounds. -/
theorem load_image_always_rgba (img : RawImage)
    (hwf : ∀ p ∈ img.pix, p.length = channelCount img.mode) :
    ∀ q ∈ load_image img, q.length = 4 ∧ (q.get? 3).isSome = true := by
  intro q hq
  have hlen : q.length = 4 := by
    obtain ⟨mode, pix⟩ := img
    unfold load_image at hq
    cases mode with
    | rgba =>
        rw [if_pos rfl] at hq
        exact hwf q hq
    | rgb =>
        rw [if_neg (by simp)] at hq
        obtain ⟨p, hp, rfl⟩ := List.mem_map.mp hq
        have hpl : p.length = 3 := hwf p hp
        simp [convert_to_rgba_pixel, hpl]
    | gray =>
        rw [if_neg (by simp)] at hq
        obtain ⟨p, hp, rfl⟩ := List.mem_map.mp hq
        rfl
  refine ⟨hlen, ?_⟩
  cases hg : q.get? 3 with
  | some a => rfl
  | none =>
      have := List.get?_eq_none.mp hg
      omega

/-- Closed witness for C10: an RGB pixel gains an in-bounds alpha channel. -/
theorem load_image_always_rgba_witness :
    ([10, 20, 30, 255] : List ℤ).length = 4 ∧
      (([10, 20, 30, 255] : List ℤ).get? 3).isSome = true :=
  load_image_always_rgba ⟨ImageMode.rgb, [[10, 20, 30]]⟩
    (by intro p hp; simp at hp; rw [hp]; rfl)
    [10, 20, 30, 255] (by simp [load_image, convert_to_rgba_pixel])

/-! ## Claims C1 and C2: synthesized mesh counts -/

lemma topVertices_length (m : HeightMap) (bt sc : ℚ) (nb : Bool) :
    (topVertices m bt sc nb).length = m.h * m.w := by
  unfold topVertices
  rw [length_flatMap_const _ _ m.w fun a _ => by simp]
  simp

lemma bottomVertices_length (m : HeightMap) (sc : ℚ) :
    (bottomVertices m sc).length = m.h * m.w := by
  unfold bottomVertices
  rw [length_flatMap_const _ _ m.w fun a _ => by simp]
  simp

lemma topFaces_length (h w : ℕ) :
    (topFaces h w).length = (h - 1) * ((w - 1) * 2) := by
  unfold topFaces
  rw [length_flatMap_const _ _ ((w - 1) * 2) fun a _ => ?_]
  · simp
  · rw [length_flatMap_const _ _ 2 fun b _ => by simp]
    simp

lemma bottomFaces_length (h w : ℕ) :
    (bottomFaces h w).length = (h - 1) * ((w - 1) * 2) := by
  unfold bottomFaces
  rw [length_flatMap_const _ _ ((w - 1) * 2) fun a _ => ?_]
  · simp
  · rw [length_flatMap_const _ _ 2 fun b _ => by simp]
    simp

lemma frontBackFaces_length (h w : ℕ) :
    (frontBackFaces h w).length = (w - 1) * 4 := by
  unfold frontBackFaces
  rw [length_flatMap_const _ _ 4 fun a _ => by simp]
  simp

lemma leftRightFaces_length (h w : ℕ) :
    (leftRightFaces h w).length = (h - 1) * 4 := by
  unfold leftRightFaces
  rw [length_flatMap_const _ _ 4 fun a _ => by simp]
  simp

lemma meshVertices_length (m : HeightMap) (bt sc : ℚ) (nb : Bool) :
    (meshVertices m bt sc nb).length =
      (if nb then m.w * m.h else 2 * (m.w * m.h)) := by
  unfold meshVertices
  cases nb with
  | true =>
      simp [topVertices_length]
      ring
  | false =>
      simp [topVertices_length, bottomVertices_length]
      ring

lemma meshFaces_length (h w : ℕ) (nb : Bool) :
    (meshFaces h w nb).length =
      (if nb then 2 * ((w - 1) * (h - 1))
       else 4 * ((w - 1) * (h - 1)) + 4 * (w - 1) + 4 * (h - 1)) := by
  unfold meshFaces
  cases nb with
  | true =>
      simp [topFaces_length]
      ring
  | false =>
      simp [topFaces_length, bottomFaces_length, frontBackFaces_length,
        leftRightFaces_length]
      ring

/-- Random draw stream for the C1 counterexample: four distinct offsets,
each inside the sampler's `[-1e-5, 1e-5)` range and more than the final
merge tolerance `1e-6` apart from each other and from zero, so the real
library tail merges nothing on this input. -/
def drawsC : List Vec3 :=
  [(5 / 1000000, 0, 0), (7 / 1000000, 0, 0), (9 / 1000000, 0, 0), (3 / 1000000, 0, 0)]

/-- Claim C1 counterexample: on a 2×2 height field without a base the
synthesized top sheet is an open surface, so the repair gate at
stl_generator.py:158-174 runs and the in-repo `enforce_edge_consistency`
duplicates each of the two vertices shared by both triangles once per
incident face: the returned mesh has 8 vertices, not the claimed
W·H = 4.  The external `trimesh` calls are instantiated as the identity,
which is their behavior on this input (vertices at unit spacing, far above
the 1e-5/1e-6 merge tolerances; winding already consistent; no degenerate
faces), and the draw stream lies inside the sampler's range. -/
theorem create_mesh_nobase_counter :
    drawsC.all offsetInRange = true ∧
    (create_mesh_from_height_map (some ⟨2, 2, fun _ _ => (0 : ℚ)⟩) 1 1 none true
        (fun _ _ _ _ _ => 0) id id id id id drawsC).map
        (fun t => t.vertices.length) = some 8 ∧
    (8 : ℕ) ≠ 2 * 2 := by
  refine ⟨by norm_num [drawsC, offsetInRange], ?_, by norm_num⟩
  simp [create_mesh_from_height_map, planned_dims, downsample_triggered,
    estimated_triangles, downsample_factor, meshVertices, meshFaces, topVertices,
    topFaces, bottomVertices, bottomFaces, frontBackFaces, leftRightFaces,
    enforce_edge_consistency_full, enforce_edge_consistency, is_watertight,
    meshEdges, faceEdges, sortEdge, problemVertex, flatEdges, processFace,
    processVertex, faceKey, List.insertionSort, List.orderedInsert, List.count,
    List.find?, drawsC, List.range_succ]

/-- Claim C1 as amended: for a height field with W ≥ 2 and H ≥ 2 and no
triangle-budget downsampling, the synthesized vertex and face arrays have
exactly the claimed counts — 2·W·H vertices and
4·(W−1)·(H−1) + 4·(W−1) + 4·(H−1) faces with a base, W·H vertices and
2·(W−1)·(H−1) faces without — and whenever the synthesized mesh is
watertight (every undirected edge in exactly two faces, as holds with a base
under positive thickness and scale, but never without a base) the repair
gate is skipped and the returned mesh is exactly the synthesized one, with
those counts.  When it is not watertight the repair path runs and the
returned vertex count can exceed the claimed one (see the
counterexample). -/
theorem create_mesh_counts_watertight (m : HeightMap) (bt sc : ℚ)
    (maxT : Option ℕ) (nb : Bool) (resize : HeightMap → ℕ → ℕ → ℕ → ℕ → ℚ)
    (e1 e2 e3 e4 e5 : TriMesh → TriMesh) (draws : List Vec3)
    (hw : 2 ≤ m.w) (hh : 2 ≤ m.h)
    (hds : downsample_triggered m.w m.h nb maxT = false) :
    (meshVertices m bt sc nb).length =
      (if nb then m.w * m.h else 2 * (m.w * m.h)) ∧
    (meshFaces m.h m.w nb).length =
      (if nb then 2 * ((m.w - 1) * (m.h - 1))
       else 4 * ((m.w - 1) * (m.h - 1)) + 4 * (m.w - 1) + 4 * (m.h - 1)) ∧
    (is_watertight ⟨meshVertices m bt sc nb, meshFaces m.h m.w nb⟩ = true →
      create_mesh_from_height_map (some m) bt sc maxT nb resize e1 e2 e3 e4 e5
          draws =
        some ⟨meshVertices m bt sc nb, meshFaces m.h m.w nb⟩ ∧
      (create_mesh_from_height_map (some m) bt sc maxT nb resize e1 e2 e3 e4 e5
          draws).map (fun t => (t.vertices.length, t.faces.length)) =
        some ((if nb then m.w * m.h else 2 * (m.w * m.h)),
          (if nb then 2 * ((m.w - 1) * (m.h - 1))
           else 4 * ((m.w - 1) * (m.h - 1)) + 4 * (m.w - 1) + 4 * (m.h - 1)))) := by
  refine ⟨meshVertices_length m bt sc nb, meshFaces_length m.h m.w nb,
    fun hwt => ?_⟩
  have hcr : create_mesh_from_height_map (some m) bt sc maxT nb resize e1 e2 e3
      e4 e5 draws = some ⟨meshVertices m bt sc nb, meshFaces m.h m.w nb⟩ := by
    unfold create_mesh_from_height_map
    simp only [hds, Bool.false_eq_true, if_false]
    rw [if_pos hwt]
  refine ⟨hcr, ?_⟩
  rw [hcr]
  simp only [Option.map_some']
  rw [meshVertices_length, meshFaces_length]

/-- Closed witness for the amended C1 on a 2×2 field with a base: the
synthesized box is watertight, so the returned mesh has 8 vertices and 12
faces. -/
theorem create_mesh_counts_watertight_witness :
    is_watertight ⟨meshVertices ⟨2, 2, fun _ _ => (0 : ℚ)⟩ 1 1 false,
        meshFaces 2 2 false⟩ = true ∧
    (create_mesh_from_height_map (some ⟨2, 2, fun _ _ => (0 : ℚ)⟩) 1 1 none false
        (fun _ _ _ _ _ => 0) id id id id id []).map
        (fun t => (t.vertices.length, t.faces.length)) = some (8, 12) := by
  have hwt : is_watertight ⟨meshVertices ⟨2, 2, fun _ _ => (0 : ℚ)⟩ 1 1 false,
      meshFaces 2 2 false⟩ = true := by decide
  refine ⟨hwt, ?_⟩
  have h := (create_mesh_counts_watertight ⟨2, 2, fun _ _ => (0 : ℚ)⟩ 1 1 none
    false (fun _ _ _ _ _ => 0) id id id id id [] (by norm_num) (by norm_num)
    rfl).2.2 hwt
  simpa using h.2

/-- Claim C2 counterexample: on a 1×1 height field
`create_mesh_from_height_map` does not fail — it returns a mesh (so no
`GeometryError` is raised and a degenerate mesh IS returned), here with zero
faces. -/
theorem degenerate_mesh_counter :
    (create_mesh_from_height_map (some ⟨1, 1, fun _ _ => (0 : ℚ)⟩) 1 1 none false
        (fun _ _ _ _ _ => 0) id id id id id []).isSome = true ∧
    (create_mesh_from_height_map (some ⟨1, 1, fun _ _ => (0 : ℚ)⟩) 1 1 none false
        (fun _ _ _ _ _ => 0) id id id id id []).map (fun t => t.faces.length) =
      some 0 := by
  exact ⟨rfl, rfl⟩

lemma estimated_triangles_degenerate (w h : ℕ) (nb : Bool)
    (hd : w < 2 ∨ h < 2) : estimated_triangles w h nb = 0 := by
  have hz : (w - 1) * (h - 1) = 0 := by
    rcases hd with hd | hd
    · have : w - 1 = 0 := by omega
      rw [this, Nat.zero_mul]
    · have : h - 1 = 0 := by omega
      rw [this, Nat.mul_zero]
  unfold estimated_triangles
  cases nb <;> simp [Nat.mul_assoc, hz]

lemma downsample_degenerate (w h : ℕ) (nb : Bool) (maxT : Option ℕ)
    (hd : w < 2 ∨ h < 2) : downsample_triggered w h nb maxT = false := by
  unfold downsample_triggered
  cases maxT with
  | none => rfl
  | some mt =>
      rw [estimated_triangles_degenerate w h nb hd]
      simp

/-- Claim C2 as amended: for a height field with W < 2 or H < 2 mesh
synthesis does not fail — no `GeometryError` exists in the code and a mesh
is always returned.  When both dimensions are degenerate the synthesized
mesh has no faces at all, is trivially watertight, and is returned as-is
with W·H top vertices (plus W·H bottom vertices when a base is generated).
When only one axis is degenerate a mesh is still returned, but it passes
through the repair path (the doubled side ribbons make it non-watertight),
so its exact counts depend on the repair and are not asserted. -/
theorem degenerate_mesh_no_failure (m : HeightMap) (bt sc : ℚ)
    (maxT : Option ℕ) (nb : Bool) (resize : HeightMap → ℕ → ℕ → ℕ → ℕ → ℚ)
    (e1 e2 e3 e4 e5 : TriMesh → TriMesh) (draws : List Vec3)
    (h1 : 1 ≤ m.w) (h2 : 1 ≤ m.h) (hd : m.w < 2 ∨ m.h < 2) :
    (create_mesh_from_height_map (some m) bt sc maxT nb resize e1 e2 e3 e4 e5
        draws).isSome = true ∧
    (m.w < 2 ∧ m.h < 2 →
      (create_mesh_from_height_map (some m) bt sc maxT nb resize e1 e2 e3 e4 e5
          draws).map (fun t => (t.vertices.length, t.faces.length)) =
        some ((if nb then m.w * m.h else 2 * (m.w * m.h)), 0)) := by
  constructor
  · unfold create_mesh_from_height_map
    simp only [downsample_degenerate m.w m.h nb maxT hd, Bool.false_eq_true,
      if_false]
    by_cases hwt : is_watertight ⟨meshVertices m bt sc nb, meshFaces m.h m.w nb⟩ =
        true
    · rw [if_pos hwt]
      rfl
    · rw [if_neg hwt]
      rfl
  · intro hboth
    have hw1 : m.w = 1 := by omega
    have hh1 : m.h = 1 := by omega
    have hfaces : meshFaces m.h m.w nb = [] := by
      rw [hw1, hh1]
      cases nb <;> rfl
    have hwt : is_watertight ⟨meshVertices m bt sc nb, meshFaces m.h m.w nb⟩ =
        true := by
      rw [hfaces]
      rfl
    unfold create_mesh_from_height_map
    simp only [downsample_degenerate m.w m.h nb maxT hd, Bool.false_eq_true,
      if_false]
    rw [if_pos hwt]
    simp only [Option.map_some']
    rw [meshVertices_length, hfaces]
    simp

/-- Closed witness for the amended C2 on a 1×1 field with a base. -/
theorem degenerate_mesh_no_failure_witness :
    (1 : ℕ) < 2 ∧
    (create_mesh_from_height_map (some ⟨1, 1, fun _ _ => (3 : ℚ)⟩) 1 1 none false
        (fun _ _ _ _ _ => 0) id id id id id []).map
        (fun t => (t.vertices.length, t.faces.length)) = some (2, 0) := by
  refine ⟨by norm_num, ?_⟩
  have h := (degenerate_mesh_no_failure ⟨1, 1, fun _ _ => (3 : ℚ)⟩ 1 1 none false
    (fun _ _ _ _ _ => 0) id id id id id [] le_rfl le_rfl
    (Or.inl (by norm_num))).2 ⟨by norm_num, by norm_num⟩
  simpa using h

/-! ## Claim C4: triangle-budget planner -/

lemma nat_le_downsample_iff (est mt k : ℕ) (hmt : 0 < mt) (hest : 0 < est) :
    ((k : ℝ) ≤ 1 / (Real.sqrt ((mt : ℝ) / est) * (9 / 10))) ↔
      k * k * (81 * mt) ≤ 100 * est := by
  have hm : (0 : ℝ) < mt := by exact_mod_cast hmt
  have he : (0 : ℝ) < est := by exact_mod_cast hest
  have hs : 0 < Real.sqrt ((mt : ℝ) / est) := Real.sqrt_pos.mpr (div_pos hm he)
  have hrw : (1 : ℝ) / (Real.sqrt ((mt : ℝ) / est) * (9 / 10)) =
      (10 / 9) * Real.sqrt ((est : ℝ) / mt) := by
    rw [show ((est : ℝ) / mt) = ((mt : ℝ) / est)⁻¹ by rw [inv_div], Real.sqrt_inv]
    field_simp
    ring
  rw [hrw]
  have h1 : ((k : ℝ) ≤ (10 / 9) * Real.sqrt ((est : ℝ) / mt)) ↔
      ((9 / 10 : ℝ) * k ≤ Real.sqrt ((est : ℝ) / mt)) := by
    constructor <;> intro h <;> linarith
  rw [h1, Real.le_sqrt (by positivity) (by positivity), le_div_iff hm]
  constructor
  · intro h
    have h' : (k * k * (81 * mt) : ℝ) ≤ 100 * est := by nlinarith
    exact_mod_cast h'
  · intro h
    have h' : (k * k * (81 * mt) : ℝ) ≤ 100 * est := by exact_mod_cast h
    push_cast at h'
    nlinarith

lemma downsample_factor_eq_formula (est mt : ℕ) (hmt : 0 < mt) (hest : 0 < est) :
    downsample_factor est mt =
      max 1 (Int.toNat ⌊(1 : ℝ) / (Real.sqrt ((mt : ℝ) / est) * (9 / 10))⌋) := by
  unfold downsample_factor
  congr 1
  have hx0 : (0 : ℝ) ≤ 1 / (Real.sqrt ((mt : ℝ) / est) * (9 / 10)) := by positivity
  have hf0 : 0 ≤ ⌊(1 : ℝ) / (Real.sqrt ((mt : ℝ) / est) * (9 / 10))⌋ :=
    Int.floor_nonneg.mpr hx0
  have key : ∀ k : ℕ, k ≤ Nat.sqrt (100 * est / (81 * mt)) ↔
      k ≤ Int.toNat ⌊(1 : ℝ) / (Real.sqrt ((mt : ℝ) / est) * (9 / 10))⌋ := by
    intro k
    rw [Nat.le_sqrt, Nat.le_div_iff_mul_le (Nat.mul_pos (by norm_num) hmt),
      Int.le_toNat hf0, Int.le_floor]
    push_cast
    exact (nat_le_downsample_iff est mt k hmt hest).symm
  exact Nat.le_antisymm ((key _).mp le_rfl) ((key _).mpr le_rfl)

/-- Claim C4: the planner estimates 6·(W−1)·(H−1) triangles with a base and
2·(W−1)·(H−1) without; when the estimate exceeds a positive `maxTriangles`,
the integer downsample factor equals
`max(1, floor(1 / (sqrt(maxTriangles / estimated) · 0.9)))` and the planned
dimensions are `max(2, floor(dim / factor))` per axis (a factor of 1 leaves
the dimensions unchanged, which coincides with the formula since then
W, H ≥ 2). -/
theorem triangle_budget_planner_formulas (w h mt : ℕ) (nb : Bool)
    (hmt : 0 < mt) (hlt : mt < estimated_triangles w h nb) :
    estimated_triangles w h nb =
      (if nb then 2 * ((w - 1) * (h - 1)) else 6 * ((w - 1) * (h - 1))) ∧
    downsample_factor (estimated_triangles w h nb) mt =
      max 1 (Int.toNat ⌊(1 : ℝ) /
        (Real.sqrt ((mt : ℝ) / (estimated_triangles w h nb : ℝ)) * (9 / 10))⌋) ∧
    planned_dims w h nb (some mt) =
      (max 2 (w / downsample_factor (estimated_triangles w h nb) mt),
       max 2 (h / downsample_factor (estimated_triangles w h nb) mt)) := by
  have hest : 0 < estimated_triangles w h nb := lt_of_le_of_lt (Nat.zero_le mt) hlt
  have hwh : 2 ≤ w ∧ 2 ≤ h := by
    have hw1 : w - 1 ≠ 0 := by
      intro h0
      unfold estimated_triangles at hest
      cases nb <;> simp [h0] at hest
    have hh1 : h - 1 ≠ 0 := by
      intro h0
      unfold estimated_triangles at hest
      cases nb <;> simp [h0] at hest
    omega
  refine ⟨?_, downsample_factor_eq_formula _ mt hmt hest, ?_⟩
  · unfold estimated_triangles
    cases nb <;> simp <;> ring
  · simp only [planned_dims]
    rw [if_pos ⟨hmt, hlt⟩]
    by_cases hd1 : 1 < downsample_factor (estimated_triangles w h nb) mt
    · rw [if_pos hd1]
    · rw [if_neg hd1]
      have hge : 1 ≤ downsample_factor (estimated_triangles w h nb) mt :=
        le_max_left _ _
      have hd : downsample_factor (estimated_triangles w h nb) mt = 1 := by omega
      rw [hd, Nat.div_one, Nat.div_one, max_eq_right hwh.1, max_eq_right hwh.2]

/-- Closed witness for C4: a 100×100 field with a base and a budget of 1000
triangles. -/
theorem triangle_budget_planner_formulas_witness :
    0 < 1000 ∧ 1000 < estimated_triangles 100 100 false ∧
      planned_dims 100 100 false (some 1000) =
        (max 2 (100 / downsample_factor (estimated_triangles 100 100 false) 1000),
         max 2 (100 / downsample_factor (estimated_triangles 100 100 false) 1000)) :=
  ⟨by norm_num, by decide,
    (triangle_budget_planner_formulas 100 100 1000 false (by norm_num) (by decide)).2.2⟩

/-! ## Claim C3: the repair offset is random, not deterministic -/

/-- A minimal non-manifold fixture: two triangles sharing only vertex 0.
Vertex 0 lies in two faces, so `np.bincount(mesh.edges.flatten())[0] = 4 > 2`
marks it as a problem vertex, and the open boundary makes the mesh
non-watertight, so the duplication pass runs. -/
def meshNM : TriMesh :=
  ⟨[(0, 0, 0), (1, 0, 0), (0, 1, 0), (2, 0, 0), (0, 2, 0)], [(0, 1, 2), (0, 3, 4)]⟩

/-- One possible stream of `np.random.uniform(-1e-5, 1e-5, 3)` draws: both
zero. -/
def drawsA : List Vec3 := [(0, 0, 0), (0, 0, 0)]

/-- Another possible stream of draws, differing only in the first draw's
x-component, still strictly inside the sampling interval. -/
def drawsB : List Vec3 := [(1 / 200000, 0, 0), (0, 0, 0)]

lemma enforce_drawsA_eval : enforce_edge_consistency meshNM drawsA =
    ⟨[(0, 0, 0), (1, 0, 0), (0, 1, 0), (2, 0, 0), (0, 2, 0), (0, 0, 0), (0, 0, 0)],
     [(5, 1, 2), (6, 3, 4)]⟩ := by
  simp [enforce_edge_consistency, meshNM, drawsA, is_watertight, meshEdges, faceEdges,
    sortEdge, problemVertex, flatEdges, processFace, processVertex, faceKey,
    List.insertionSort, List.orderedInsert, List.count, List.find?]
  decide

lemma enforce_drawsB_eval : enforce_edge_consistency meshNM drawsB =
    ⟨[(0, 0, 0), (1, 0, 0), (0, 1, 0), (2, 0, 0), (0, 2, 0), (1 / 200000, 0, 0), (0, 0, 0)],
     [(5, 1, 2), (6, 3, 4)]⟩ := by
  simp [enforce_edge_consistency, meshNM, drawsB, is_watertight, meshEdges, faceEdges,
    sortEdge, problemVertex, flatEdges, processFace, processVertex, faceKey,
    List.insertionSort, List.orderedInsert, List.count, List.find?]
  decide

/-- Claim C3, evaluated at the failing input: the repair's vertex offset is
drawn from `np.random.uniform(-offset_factor, offset_factor, 3)`
(stl_generator.py:292), an unseeded random source — NOT a deterministic
function of a stable key.  Two draw streams, both of which the uniform
sampler can produce (every component inside `[-1e-5, 1e-5)`), yield
different output meshes on the identical input mesh, so two runs of the
repair need not be bit-identical, contradicting the claim. -/
theorem repair_offset_not_deterministic :
    drawsA.all offsetInRange = true ∧ drawsB.all offsetInRange = true ∧
    enforce_edge_consistency meshNM drawsA ≠ enforce_edge_consistency meshNM drawsB := by
  refine ⟨?_, ?_, ?_⟩
  · norm_num [drawsA, offsetInRange]
  · norm_num [drawsB, offsetInRange]
  · rw [enforce_drawsA_eval, enforce_drawsB_eval]
    simp only [ne_eq, TriMesh.mk.injEq, List.cons.injEq, Prod.mk.injEq]
    norm_num

end ImageToSTL
